import Mathlib

/-!
Shallow embedding of `src/formatters/ConsoleFormatter.ts` from the
chrome-devtools-mcp repository: the console-message / uncaught-error
diagnostic formatter (data model, argument resolution, stack-trace
rendering with ignore-list filtering, truncation, and the concise and
detailed string/JSON projections).

External collaborators (the DevTools stack-trace model, the remote-value
resolver, `SymbolizedError.fromError`, `createStackTraceForConsoleMessage`,
the ignore-list manager, and the `uiLocation(...).linkText(...)` source
location formatter) are modelled by their observable outcomes: a value or
a failure (`Except Unit _`), or a stored result string.

JavaScript exceptions are modelled with `Option`: a function that can
throw returns `none` on the throwing path, and `none` propagates through
callers exactly as an exception would.
-/

/-- Result of `uiLocation(frame.line, frame.column).linkText(false, true)`
for a frame whose `uiSourceCode` is present.  The location resolver is an
external collaborator, so we store its output string for the frame's fixed
line and column. -/
structure UISourceCode where
  linkText : String
  deriving DecidableEq, Repr

/-- One call-site entry of a symbolicated stack.  `line` and `column` are
the internal 0-based numbers of the DevTools stack-trace model. -/
structure Frame where
  name : Option String
  url : Option String
  line : Nat
  column : Nat
  uiSourceCode : Option UISourceCode
  deriving DecidableEq, Repr

/-- A contiguous run of synchronous frames, innermost first. -/
structure Fragment where
  frames : List Frame
  deriving DecidableEq, Repr

/-- A fragment preceded by an asynchronous scheduling boundary.  In the
DevTools model `description` is an optional string; the renderer treats a
missing or empty description as falsy. -/
structure AsyncFragment where
  description : Option String
  frames : List Frame
  deriving DecidableEq, Repr

/-- A symbolicated stack trace: one synchronous fragment plus the ordered
asynchronous fragments (oldest boundary last). -/
structure StackTrace where
  syncFragment : Fragment
  asyncFragments : List AsyncFragment
  deriving DecidableEq, Repr

/-- A resolved error value: message, optional stack trace, optional cause
chain (itself a `SymbolizedError`). -/
inductive SymbolizedError where
  | mk (message : String) (stackTrace : Option StackTrace)
      (cause : Option SymbolizedError) : SymbolizedError
  deriving Repr

def SymbolizedError.message : SymbolizedError → String
  | .mk m _ _ => m

def SymbolizedError.stackTrace : SymbolizedError → Option StackTrace
  | .mk _ s _ => s

def SymbolizedError.cause : SymbolizedError → Option SymbolizedError
  | .mk _ _ c => c

/-- The ignore predicate over a single frame (`IgnoreCheck` in the source). -/
def IgnoreCheck : Type := Frame → Bool

/-- JavaScript truthiness of an optional string: `undefined` and `""` are
falsy, so `x || d` yields `d` for both. -/
def jsOrDefault (x : Option String) (d : String) : String :=
  match x with
  | some s => if s == "" then d else s
  | none => d

/-- JavaScript `String.prototype.repeat`: throws a `RangeError` for a
negative count, modelled as `none`. -/
def jsRepeat (c : Char) (n : Int) : Option String :=
  if n < 0 then none else some (String.mk (List.replicate n.toNat c))

/-- JavaScript `Array.prototype.map` with the element index, starting the
index at `i`. -/
def mapIdxFrom (f : Nat → α → β) (i : Nat) : List α → List β
  | [] => []
  | a :: as => f i a :: mapIdxFrom f (i + 1) as

/-- JavaScript `array.map((x, i) => ...)`. -/
def jsMapWithIndex (f : Nat → α → β) (l : List α) : List β :=
  mapIdxFrom f 0 l

/-- Exception-propagating map: `array.map(f)` where `f` may throw.  The
first throwing element aborts the whole map, exactly as the exception
would abort the surrounding call. -/
def mapOrThrow (f : α → Option β) : List α → Option (List β)
  | [] => some []
  | x :: rest =>
    match f x with
    | some y =>
      match mapOrThrow f rest with
      | some ys => some (y :: ys)
      | none => none
    | none => none

/-- Embeds `formatFrame`: `at <name or "<anonymous>"> (<location>)`.
`frame.name ?? '<anonymous>'` is nullish coalescing, so an empty-string
name is kept; `else if (frame.url)` is a truthiness test, so an empty url
yields no location suffix. -/
def formatFrame (frame : Frame) : String :=
  let base := "at " ++ (match frame.name with
    | some n => n
    | none => "<anonymous>")
  match frame.uiSourceCode with
  | some u => base ++ (" (" ++ u.linkText ++ ")")
  | none =>
    match frame.url with
    | some url =>
      if url == "" then base
      else base ++ (" (" ++ url ++ ":" ++ toString frame.line ++ ":" ++
        toString frame.column ++ ")")
    | none => base

/-- Embeds `formatFragment`: drop frames the ignore predicate accepts,
render the survivors. -/
def formatFragment (fragment : Fragment) (isIgnored : IgnoreCheck) :
    List String :=
  (fragment.frames.filter (fun frame => !(isIgnored frame))).map formatFrame

/-- Embeds `formatAsyncFragment`: no surviving frames means no output at
all; otherwise a 40-character dash banner built from the description (or
`async`) heads the frame lines.  `'-'.repeat(40 - prefix.length)` throws
when the banner seed is longer than 40 characters, hence the `Option`. -/
def formatAsyncFragment (fragment : AsyncFragment)
    (isIgnored : IgnoreCheck) : Option (List String) :=
  let formattedFrames := formatFragment ⟨fragment.frames⟩ isIgnored
  if formattedFrames.isEmpty then some []
  else
    let banner := "--- " ++ jsOrDefault fragment.description "async" ++ " "
    match jsRepeat '-' ((40 : Int) - (banner.length : Int)) with
    | none => none
    | some dashes => some ((banner ++ dashes) :: formattedFrames)

mutual

/-- Embeds `formatStackTraceInner`: sync fragment lines, then async
fragment lines, then the recursively rendered cause.  A missing stack
trace yields no lines at all (the cause is not rendered either). -/
def formatStackTraceInner (stackTrace : Option StackTrace)
    (cause : Option SymbolizedError) (isIgnored : IgnoreCheck) :
    Option (List String) :=
  match stackTrace with
  | none => some []
  | some st =>
    match mapOrThrow (fun item => formatAsyncFragment item isIgnored)
        st.asyncFragments with
    | none => none
    | some asyncLines =>
      match formatCause cause isIgnored with
      | none => none
      | some causeLines =>
        some (formatFragment st.syncFragment isIgnored ++
          (asyncLines.flatten ++ causeLines))
termination_by (sizeOf cause, 1)

/-- Embeds `formatCause`: a `Caused by:` line for the link, then that
link's own stack rendered recursively. -/
def formatCause (cause : Option SymbolizedError) (isIgnored : IgnoreCheck) :
    Option (List String) :=
  match cause with
  | none => some []
  | some c =>
    match formatStackTraceInner c.stackTrace c.cause isIgnored with
    | none => none
    | some rest => some (("Caused by: " ++ c.message) :: rest)
termination_by (sizeOf cause, 0)
decreasing_by
  cases c with
  | mk m s cc => simp [SymbolizedError.stackTrace, SymbolizedError.cause]; omega

end

/-- `STACK_TRACE_MAX_LINES` from the source. -/
def STACK_TRACE_MAX_LINES : Nat := 50

/-- The fixed trailing note appended to every rendered stack trace. -/
def INDEXING_NOTE : String := "Note: line and column numbers use 1-based indexing"

/-- Embeds `formatStackTrace`: render, truncate to 50 lines, append the
remainder line when lines were dropped, then the fixed indexing note;
`.filter(line => !!line)` keeps only non-empty strings. -/
def formatStackTrace (stackTrace : StackTrace)
    (cause : Option SymbolizedError) (isIgnored : IgnoreCheck) :
    Option String :=
  match formatStackTraceInner (some stackTrace) cause isIgnored with
  | none => none
  | some lines =>
    let includedLines := lines.take STACK_TRACE_MAX_LINES
    let reminderCount := lines.length - includedLines.length
    some (String.intercalate "\n"
      ((includedLines ++
        [(if reminderCount > 0 then
            "... and " ++ toString reminderCount ++ " more frames"
          else ""),
          INDEXING_NOTE]).filter (fun line => !(line == ""))))

/-- A realized (non-error) argument value, tagged by its JavaScript
`typeof` as `formatArg` inspects it: an object carries its
`JSON.stringify` rendering, anything else its `String(...)` rendering.
Both renderings come from JavaScript built-ins, outside the core. -/
inductive JsValue where
  | obj (stringified : String)
  | prim (asString : String)
  deriving DecidableEq, Repr

/-- One element of the formatter's resolved-argument list: either a
`SymbolizedError` instance or a realized plain value. -/
inductive ResolvedArg where
  | err (e : SymbolizedError)
  | val (v : JsValue)
  deriving Repr

/-- Embeds `formatArg`: a `SymbolizedError` renders as its message plus
(when present) its own rendered stack; the `.filter(line => !!line)`
drops an empty message and a missing stack part.  Other values render by
their `typeof`-selected built-in rendering. -/
def formatArg (arg : ResolvedArg) (isIgnored : IgnoreCheck) : Option String :=
  match arg with
  | .err e =>
    match e.stackTrace with
    | some st =>
      match formatStackTrace st e.cause isIgnored with
      | none => none
      | some stackText =>
        some (String.intercalate "\n"
          (([e.message, stackText]).filter (fun line => !(line == ""))))
    | none =>
      some (String.intercalate "\n"
        (([e.message]).filter (fun line => !(line == ""))))
  | .val (.obj s) => some s
  | .val (.prim s) => some s

/-- The concise structured rendering (`ConsoleMessageConcise`). -/
structure ConsoleMessageConcise where
  type : String
  text : String
  argsCount : Nat
  id : Nat
  deriving DecidableEq, Repr

/-- The detailed structured rendering (`ConsoleMessageDetailed`): the
concise fields plus pre-formatted args and an optional pre-formatted
stack trace. -/
structure ConsoleMessageDetailed where
  id : Nat
  type : String
  text : String
  argsCount : Nat
  args : List String
  stackTrace : Option String
  deriving DecidableEq, Repr

/-- Embeds `convertConsoleMessageConciseToString`. -/
def convertConsoleMessageConciseToString (msg : ConsoleMessageConcise) :
    String :=
  "msgid=" ++ toString msg.id ++ " [" ++ msg.type ++ "] " ++ msg.text ++
    " (" ++ toString msg.argsCount ++ " args)"

/-- Embeds `formatArgs`: empty list renders as the empty string, otherwise
an `### Arguments` heading followed by `Arg #<index>: <formatted>` lines
(`args.entries()` enumerates indices from 0). -/
def formatArgs (msg : ConsoleMessageDetailed) : String :=
  if msg.args.isEmpty then ""
  else
    String.intercalate "\n"
      ("### Arguments" ::
        (msg.args.enum.map (fun p =>
          "Arg #" ++ toString p.1 ++ ": " ++ p.2)))

/-- Embeds `convertConsoleMessageConciseDetailedToString`: the ID line,
the Message line, the arguments section, and (when a stack is present)
the `### Stack trace` heading plus the rendered stack, with empty
sections filtered out and the survivors joined by single newlines. -/
def convertConsoleMessageConciseDetailedToString
    (msg : ConsoleMessageDetailed) : String :=
  String.intercalate "\n"
    ((["ID: " ++ toString msg.id,
       "Message: " ++ msg.type ++ "> " ++ msg.text,
       formatArgs msg] ++
      (match msg.stackTrace with
       | some s => ["### Stack trace", s]
       | none => [])).filter (fun line => !(line == "")))

/-- The immutable state a `ConsoleFormatter` instance holds after `from`
finished: the private `#id`, `#type`, `#text`, `#argCount`,
`#resolvedArgs`, `#stack`, `#cause` fields and the `isIgnored` predicate. -/
structure ConsoleFormatterState where
  id : Nat
  type : String
  text : String
  argCount : Nat
  resolvedArgs : List ResolvedArg
  stack : Option StackTrace
  cause : Option SymbolizedError
  isIgnored : IgnoreCheck

/-- Embeds the private `#getArgs`: with a non-empty resolved list, a
record whose text is empty (falsy) has its first argument shifted off —
it served as the text. -/
def ConsoleFormatterState.getArgs (st : ConsoleFormatterState) :
    List ResolvedArg :=
  if st.resolvedArgs.length > 0 then
    if st.text == "" then st.resolvedArgs.tail else st.resolvedArgs
  else []

/-- Embeds `toJSON`. -/
def ConsoleFormatterState.toJSON (st : ConsoleFormatterState) :
    ConsoleMessageConcise :=
  ⟨st.type, st.text, st.argCount, st.id⟩

/-- Embeds `toString`. -/
def ConsoleFormatterState.toString (st : ConsoleFormatterState) : String :=
  convertConsoleMessageConciseToString st.toJSON

/-- Embeds `toJSONDetailed`: the concise fields plus each kept argument
formatted by `formatArg`, plus the rendered stack trace when a stack is
present.  A throw while formatting propagates (`none`). -/
def ConsoleFormatterState.toJSONDetailed (st : ConsoleFormatterState) :
    Option ConsoleMessageDetailed :=
  match mapOrThrow (fun arg => formatArg arg st.isIgnored) st.getArgs with
  | none => none
  | some args =>
    match st.stack with
    | some s =>
      match formatStackTrace s st.cause st.isIgnored with
      | none => none
      | some stackText =>
        some ⟨st.id, st.type, st.text, st.argCount, args, some stackText⟩
    | none => some ⟨st.id, st.type, st.text, st.argCount, args, none⟩

/-- Embeds `toStringDetailed`. -/
def ConsoleFormatterState.toStringDetailed (st : ConsoleFormatterState) :
    Option String :=
  match st.toJSONDetailed with
  | none => none
  | some msg => some (convertConsoleMessageConciseDetailedToString msg)

/-- The outcome-level model of one raw console-message argument, as the
resolution loop in `from` observes it: whether its remote object is an
error-subtyped object, the outcome of `SymbolizedError.fromError` on it,
and the outcome of `arg.jsonValue()`.  Both collaborators are external
and may throw (`Except.error`). -/
structure RawArg where
  isErrorObject : Bool
  symbolized : Except Unit SymbolizedError
  jsonValue : Except Unit JsValue

/-- One iteration of the argument-resolution loop in `from`: the try
block realizes the argument (as a `SymbolizedError` for error-subtyped
objects, as a JSON value otherwise) and the catch turns any failure into
the index-naming sentinel string. -/
def resolveArg (i : Nat) (arg : RawArg) : ResolvedArg :=
  if arg.isErrorObject then
    match arg.symbolized with
    | .ok e => .err e
    | .error _ =>
      .val (.prim ("<error: Argument " ++ toString i ++
        " is no longer available>"))
  else
    match arg.jsonValue with
    | .ok v => .val v
    | .error _ =>
      .val (.prim ("<error: Argument " ++ toString i ++
        " is no longer available>"))

/-- The ignore-list manager collaborator (external): the two lookup
methods the default ignore predicate consults. -/
structure IgnoreListManager where
  isUserOrSourceMapIgnoreListedUISourceCode : UISourceCode → Bool
  isUserIgnoreListedURL : String → Bool

/-- A console-message source as `from` observes it: the record's `type()`,
`text()` and `args()`, plus the outcome of the external
`createStackTraceForConsoleMessage` collaborator for this message. -/
structure MsgSource where
  type : String
  text : String
  args : List RawArg
  stackResult : Except Unit StackTrace

/-- `ConsoleFormatterOptions` (console-message path): the detail flag, the
id, whether a devTools handle was supplied, and the testing overrides. -/
structure FromOptions where
  fetchDetailedData : Bool
  id : Nat
  hasDevTools : Bool
  resolvedArgsForTesting : Option (List ResolvedArg)
  resolvedStackTraceForTesting : Option StackTrace
  isIgnoredForTesting : Option IgnoreCheck

/-- The default ignore predicate built in `from`: no manager means never
ignored; a frame with a `uiSourceCode` is checked against the source-code
ignore list, otherwise a truthy (non-empty) url is checked against the
url ignore list. -/
def defaultIsIgnored (manager : Option IgnoreListManager) : IgnoreCheck :=
  fun frame =>
    match manager with
    | none => false
    | some m =>
      match frame.uiSourceCode with
      | some u => m.isUserOrSourceMapIgnoreListedUISourceCode u
      | none =>
        match frame.url with
        | some url =>
          if url == "" then false else m.isUserIgnoreListedURL url
        | none => false

/-- Embeds `ConsoleFormatter.from` on the console-message branch.
Arguments are resolved (in original order, each failure isolated by its
own catch) only when `fetchDetailedData` is set and no testing override
is given; the stack is the testing override, or else the collaborator's
result with a failure swallowed to "no stack"; `argCount` is
`resolvedArgs.length || msg.args().length`. -/
def ConsoleFormatter.from (msg : MsgSource) (options : FromOptions)
    (manager : Option IgnoreListManager) : ConsoleFormatterState :=
  let isIgnored : IgnoreCheck :=
    match options.isIgnoredForTesting with
    | some f => f
    | none => defaultIsIgnored manager
  let resolvedArgs : List ResolvedArg :=
    match options.resolvedArgsForTesting with
    | some a => a
    | none =>
      if options.fetchDetailedData then jsMapWithIndex resolveArg msg.args
      else []
  let stack : Option StackTrace :=
    match options.resolvedStackTraceForTesting with
    | some s => some s
    | none =>
      if options.fetchDetailedData && options.hasDevTools then
        match msg.stackResult with
        | .ok s => some s
        | .error _ => none
      else none
  ⟨options.id, msg.type, msg.text,
    (if resolvedArgs.length ≠ 0 then resolvedArgs.length else msg.args.length),
    resolvedArgs, stack, none, isIgnored⟩

/-- Depth of a cause chain. -/
def causeDepth : Option SymbolizedError → Nat
  | none => 0
  | some c => 1 + causeDepth c.cause
termination_by cause => sizeOf cause
decreasing_by
  cases c with
  | mk m s cc => simp [SymbolizedError.cause]; omega

/-- Every link of the chain except possibly the last carries a stack
trace. -/
def innerLinksHaveStacks : Option SymbolizedError → Bool
  | none => true
  | some c =>
    match c.cause with
    | none => true
    | some _ => c.stackTrace.isSome && innerLinksHaveStacks c.cause
termination_by cause => sizeOf cause
decreasing_by
  cases c with
  | mk m s cc => simp [SymbolizedError.cause]; omega

/-- A rendered line of the form `Caused by: <message>`. -/
def causedByLine (l : String) : Bool :=
  List.isPrefixOf "Caused by: ".data l.data

/-- The shapes a line of `formatStackTraceInner` output can take: a frame
line, an async separator banner, or a cause line. -/
def lineShape (l : String) : Prop :=
  (∃ rest, l = "at " ++ rest) ∨ (∃ rest, l = "--- " ++ rest) ∨
    (∃ rest, l = "Caused by: " ++ rest)

/-- The never-ignore predicate (the default when no ignore-list manager
and no testing override is available). -/
def ignNever : IgnoreCheck := fun _ => false

/-- A frame with no name, url or resolved location; renders as the
13-character line `at <anonymous>`. -/
def anonFrame : Frame := ⟨none, none, 0, 0, none⟩

/-- A raw argument that is not error-subtyped and whose `jsonValue()`
realizes to the given string. -/
def rawStringArg (s : String) : RawArg := ⟨false, .error (), .ok (.prim s)⟩

/-- A raw argument that is not error-subtyped and whose `jsonValue()`
throws. -/
def rawFailingArg : RawArg := ⟨false, .error (), .error ()⟩

/-- Scenario A of the spec: a log record with text `Hello, world!` and no
arguments. -/
def msgScenarioA : MsgSource := ⟨"log", "Hello, world!", [], .error ()⟩

/-- Scenario B of the spec: a log record with empty text and the two
string arguments `file.txt` and `another file`. -/
def msgScenarioB : MsgSource :=
  ⟨"log", "", [rawStringArg "file.txt", rawStringArg "another file"],
    .error ()⟩

/-- Options requesting detailed enrichment, with no devTools handle and
no testing overrides. -/
def optsEnriched (id : Nat) : FromOptions := ⟨true, id, false, none, none, none⟩

/-- Options on the cheap path: no enrichment, no overrides. -/
def optsPlain (id : Nat) : FromOptions := ⟨false, id, false, none, none, none⟩

/-- The join the spec describes for the detailed string rendering:
non-empty sections separated by a blank line (two newlines). -/
def blankLineJoinedSpec (sections : List String) : String :=
  String.intercalate "\n\n" (sections.filter (fun line => !(line == "")))

theorem beq_empty_at (rest : String) : (("at " ++ rest) == "") = false := by
  cases rest with
  | mk l => rfl

theorem beq_empty_dash (rest : String) : (("--- " ++ rest) == "") = false := by
  cases rest with
  | mk l => rfl

theorem beq_empty_caused (rest : String) :
    (("Caused by: " ++ rest) == "") = false := by
  cases rest with
  | mk l => rfl

theorem causedByLine_at (rest : String) :
    causedByLine ("at " ++ rest) = false := by
  cases rest with
  | mk l => rfl

theorem causedByLine_dash (rest : String) :
    causedByLine ("--- " ++ rest) = false := by
  cases rest with
  | mk l => rfl

theorem causedByLine_caused (rest : String) :
    causedByLine ("Caused by: " ++ rest) = true := by
  cases rest with
  | mk l => simp [causedByLine, List.isPrefixOf]

theorem lineShape_ne_empty {l : String} (h : lineShape l) :
    (l == "") = false := by
  rcases h with ⟨r, rfl⟩ | ⟨r, rfl⟩ | ⟨r, rfl⟩
  · exact beq_empty_at r
  · exact beq_empty_dash r
  · exact beq_empty_caused r

theorem lineShape_not_causedBy_of_at {l : String}
    (h : (∃ rest, l = "at " ++ rest) ∨ (∃ rest, l = "--- " ++ rest)) :
    causedByLine l = false := by
  rcases h with ⟨r, rfl⟩ | ⟨r, rfl⟩
  · exact causedByLine_at r
  · exact causedByLine_dash r

theorem formatFrame_shape (frame : Frame) :
    ∃ rest, formatFrame frame = "at " ++ rest := by
  obtain ⟨name, url, line, column, uiSourceCode⟩ := frame
  simp only [formatFrame]
  split
  · exact ⟨_, String.append_assoc _ _ _⟩
  · split
    · split
      · exact ⟨_, rfl⟩
      · exact ⟨_, String.append_assoc _ _ _⟩
    · exact ⟨_, rfl⟩

theorem mapOrThrow_mem {f : α → Option β} :
    ∀ {as : List α} {bs : List β}, mapOrThrow f as = some bs →
      ∀ b ∈ bs, ∃ a ∈ as, f a = some b := by
  intro as
  induction as with
  | nil =>
    intro bs h b hb
    rw [mapOrThrow] at h
    cases h
    cases hb
  | cons a as ih =>
    intro bs h b hb
    rw [mapOrThrow] at h
    split at h
    · split at h
      · rename_i ob b0 hfa obs bs0 hrest
        cases h
        rcases List.mem_cons.mp hb with rfl | hb
        · exact ⟨a, List.mem_cons_self a as, hfa⟩
        · obtain ⟨a2, ha2, hfa2⟩ := ih hrest b hb
          exact ⟨a2, List.mem_cons_of_mem a ha2, hfa2⟩
      · cases h
    · cases h

theorem formatAsyncFragment_shape {frag : AsyncFragment} {ign : IgnoreCheck}
    {lines : List String} (h : formatAsyncFragment frag ign = some lines) :
    ∀ l ∈ lines,
      (∃ rest, l = "at " ++ rest) ∨ (∃ rest, l = "--- " ++ rest) := by
  simp only [formatAsyncFragment] at h
  split at h
  · cases h
    intro l hl
    cases hl
  · split at h
    · cases h
    · cases h
      intro l hl
      rcases List.mem_cons.mp hl with rfl | hl
      · right
        simp only [String.append_assoc]
        exact ⟨_, rfl⟩
      · left
        obtain ⟨f, _, hf⟩ :
            ∃ a, (a ∈ frag.frames ∧ ign a = false) ∧ formatFrame a = l := by
          simpa [formatFragment] using hl
        rw [← hf]
        exact formatFrame_shape f

theorem shape_aux (n : Nat) : ∀ (cause : Option SymbolizedError),
    sizeOf cause ≤ n →
    (∀ (ign : IgnoreCheck) (lines : List String),
        formatCause cause ign = some lines → ∀ l ∈ lines, lineShape l) ∧
    (∀ (stackTrace : Option StackTrace) (ign : IgnoreCheck)
        (lines : List String),
        formatStackTraceInner stackTrace cause ign = some lines →
        ∀ l ∈ lines, lineShape l) := by
  induction n with
  | zero =>
    intro cause hsize
    exfalso
    cases cause <;> simp at hsize
  | succ n ih =>
    intro cause hsize
    have causePart : ∀ (ign : IgnoreCheck) (lines : List String),
        formatCause cause ign = some lines → ∀ l ∈ lines, lineShape l := by
      cases cause with
      | none =>
        intro ign lines h
        rw [formatCause] at h
        cases h
        intro l hl
        cases hl
      | some c =>
        intro ign lines h
        have hsub : sizeOf c.cause ≤ n := by
          cases c with
          | mk m s cc =>
            simp [SymbolizedError.cause]
            simp at hsize
            omega
        rw [formatCause] at h
        split at h
        · cases h
        · rename_i rest hrest
          cases h
          intro l hl
          rcases List.mem_cons.mp hl with rfl | hl
          · exact Or.inr (Or.inr ⟨c.message, rfl⟩)
          · exact (ih c.cause hsub).2 c.stackTrace ign rest hrest l hl
    refine ⟨causePart, ?_⟩
    intro stackTrace ign lines h
    cases stackTrace with
    | none =>
      rw [formatStackTraceInner] at h
      cases h
      intro l hl
      cases hl
    | some st =>
      rw [formatStackTraceInner] at h
      split at h
      · cases h
      · rename_i asyncLines hma
        split at h
        · cases h
        · rename_i causeLines hcl
          cases h
          intro l hl
          rcases List.mem_append.mp hl with hsync | hrest
          · obtain ⟨f, _, hf⟩ :
                ∃ a, (a ∈ st.syncFragment.frames ∧ ign a = false) ∧
                  formatFrame a = l := by
              simpa [formatFragment] using hsync
            rw [← hf]
            exact Or.inl (formatFrame_shape f)
          · rcases List.mem_append.mp hrest with hasync | hcause
            · obtain ⟨ls, hls, hl2⟩ := List.mem_flatten.mp hasync
              obtain ⟨afrag, _, hfa⟩ := mapOrThrow_mem hma ls hls
              rcases formatAsyncFragment_shape hfa l hl2 with h1 | h2
              · exact Or.inl h1
              · exact Or.inr (Or.inl h2)
            · exact causePart ign causeLines hcl l hcause

theorem formatStackTraceInner_shape {stackTrace : Option StackTrace}
    {cause : Option SymbolizedError} {ign : IgnoreCheck}
    {lines : List String}
    (h : formatStackTraceInner stackTrace cause ign = some lines) :
    ∀ l ∈ lines, lineShape l :=
  (shape_aux (sizeOf cause) cause le_rfl).2 stackTrace ign lines h

theorem formatCause_shape {cause : Option SymbolizedError}
    {ign : IgnoreCheck} {lines : List String}
    (h : formatCause cause ign = some lines) :
    ∀ l ∈ lines, lineShape l :=
  (shape_aux (sizeOf cause) cause le_rfl).1 ign lines h

theorem beq_empty_dots (rest : String) :
    (("... and " ++ rest) == "") = false := by
  cases rest with
  | mk l => rfl

/-- C1: when the inner rendering of a stack trace exceeds 50 lines,
`formatStackTrace` shows exactly the first 50 inner lines followed by a
`... and N more frames` line with `N` the total minus 50; with at most 50
inner lines no remainder line appears; in both cases the fixed 1-based
indexing note comes last. -/
theorem formatStackTrace_truncation (st : StackTrace)
    (cause : Option SymbolizedError) (ign : IgnoreCheck)
    (lines : List String)
    (h : formatStackTraceInner (some st) cause ign = some lines) :
    formatStackTrace st cause ign = some (String.intercalate "\n"
      (lines.take 50 ++
        (if 50 < lines.length then
          ["... and " ++ toString (lines.length - 50) ++ " more frames"]
         else []) ++ [INDEXING_NOTE])) := by
  have hne : ∀ l ∈ lines, (l == "") = false := fun l hl =>
    lineShape_ne_empty (formatStackTraceInner_shape h l hl)
  simp only [formatStackTrace, h, STACK_TRACE_MAX_LINES]
  congr 1
  rw [List.filter_append]
  have htake : (lines.take 50).filter (fun line => !(line == "")) =
      lines.take 50 := by
    apply List.filter_eq_self.mpr
    intro a ha
    rw [hne a (List.mem_of_mem_take ha)]
    rfl
  rw [htake, List.length_take]
  by_cases hlen : 50 < lines.length
  · have hmin : min 50 lines.length = 50 := by omega
    rw [hmin]
    have hpos : lines.length - 50 > 0 := by omega
    simp only [if_pos hpos, if_pos hlen]
    have hr : (("... and " ++ toString (lines.length - 50) ++
        " more frames") == "") = false := by
      rw [String.append_assoc]
      exact beq_empty_dots _
    simp [hr, INDEXING_NOTE]
  · have hmin : min 50 lines.length = lines.length := by omega
    rw [hmin]
    have hz : lines.length - lines.length = 0 := by omega
    simp only [hz, if_neg hlen]
    simp [INDEXING_NOTE]

theorem formatStackTrace_truncation_witness :
    formatStackTrace ⟨⟨[anonFrame]⟩, []⟩ none ignNever =
      some (String.intercalate "\n"
        ((["at <anonymous>"] : List String).take 50 ++
          (if 50 < (["at <anonymous>"] : List String).length then
            ["... and " ++
              toString ((["at <anonymous>"] : List String).length - 50) ++
              " more frames"]
           else []) ++ [INDEXING_NOTE])) :=
  formatStackTrace_truncation _ _ _ ["at <anonymous>"] (by
    simp [formatStackTraceInner, formatCause, mapOrThrow, formatFragment,
      formatFrame, ignNever, anonFrame])

/-- C2: frames accepted by the ignore predicate contribute no output
lines; a synchronous fragment whose frames are all ignored renders zero
lines; an async fragment whose frames are all ignored is omitted
entirely, separator banner included. -/
theorem ignored_frames_render_nothing :
    (∀ (fragment : Fragment) (ign : IgnoreCheck),
      formatFragment fragment ign =
        (fragment.frames.filter (fun f => !(ign f))).map formatFrame) ∧
    (∀ (fragment : Fragment) (ign : IgnoreCheck),
      (∀ f ∈ fragment.frames, ign f = true) →
        formatFragment fragment ign = []) ∧
    (∀ (afrag : AsyncFragment) (ign : IgnoreCheck),
      (∀ f ∈ afrag.frames, ign f = true) →
        formatAsyncFragment afrag ign = some []) := by
  have hfrag : ∀ (fragment : Fragment) (ign : IgnoreCheck),
      (∀ f ∈ fragment.frames, ign f = true) →
        formatFragment fragment ign = [] := by
    intro fragment ign hall
    have : fragment.frames.filter (fun f => !(ign f)) = [] := by
      apply List.filter_eq_nil_iff.mpr
      intro f hf
      simp [hall f hf]
    simp [formatFragment, this]
  refine ⟨fun fragment ign => rfl, hfrag, ?_⟩
  intro afrag ign hall
  have h0 : formatFragment ⟨afrag.frames⟩ ign = [] := hfrag ⟨afrag.frames⟩ ign hall
  simp [formatAsyncFragment, h0]

theorem ignored_frames_render_nothing_witness :
    formatFragment ⟨[anonFrame]⟩ (fun _ => true) = [] ∧
    formatAsyncFragment ⟨some "setTimeout", [anonFrame]⟩ (fun _ => true) =
      some [] :=
  ⟨ignored_frames_render_nothing.2.1 ⟨[anonFrame]⟩ (fun _ => true)
      (fun _ _ => rfl),
    ignored_frames_render_nothing.2.2 ⟨some "setTimeout", [anonFrame]⟩
      (fun _ => true) (fun _ _ => rfl)⟩

/-- C3: with empty text and a non-empty resolved-argument list, the first
resolved argument is excluded from both detailed renderings while
`argsCount` keeps the full count; scenario B gives `argsCount = 2` with a
detailed args list of just `another file`. -/
theorem emptyText_drops_first_resolved_arg :
    (∀ (st : ConsoleFormatterState) (a : ResolvedArg)
        (rest : List ResolvedArg) (d : ConsoleMessageDetailed),
      st.text = "" → st.resolvedArgs = a :: rest →
      st.toJSONDetailed = some d →
        mapOrThrow (fun x => formatArg x st.isIgnored) rest = some d.args ∧
        d.argsCount = st.argCount) ∧
    ((ConsoleFormatter.from msgScenarioB (optsEnriched 1) none).argCount = 2 ∧
      (ConsoleFormatter.from msgScenarioB (optsEnriched 1) none).toJSONDetailed =
        some ⟨1, "log", "", 2, ["another file"], none⟩ ∧
      (ConsoleFormatter.from msgScenarioB (optsEnriched 1) none).toStringDetailed =
        some "ID: 1\nMessage: log> \n### Arguments\nArg #0: another file") := by
  constructor
  · intro st a rest d htext hargs h
    have hget : st.getArgs = rest := by
      simp [ConsoleFormatterState.getArgs, hargs, htext]
    rw [ConsoleFormatterState.toJSONDetailed, hget] at h
    split at h
    · cases h
    · rename_i args hmap
      split at h
      · split at h
        · cases h
        · cases h
          refine ⟨?_, rfl⟩
          simp [hmap]
      · cases h
        refine ⟨?_, rfl⟩
        simp [hmap]
  · refine ⟨by decide, by decide, by decide⟩

theorem emptyText_drops_first_resolved_arg_witness :
    mapOrThrow
      (fun x => formatArg x
        (ConsoleFormatter.from msgScenarioB (optsEnriched 1) none).isIgnored)
      [.val (.prim "another file")] =
      some (⟨1, "log", "", 2, ["another file"], none⟩ :
        ConsoleMessageDetailed).args ∧
    (⟨1, "log", "", 2, ["another file"], none⟩ :
      ConsoleMessageDetailed).argsCount =
      (ConsoleFormatter.from msgScenarioB (optsEnriched 1) none).argCount :=
  emptyText_drops_first_resolved_arg.1
    (ConsoleFormatter.from msgScenarioB (optsEnriched 1) none)
    (.val (.prim "file.txt")) [.val (.prim "another file")]
    ⟨1, "log", "", 2, ["another file"], none⟩ rfl rfl rfl

/-- C4: `toString` and `toJSON` are functions of `id`, `type`, `text` and
`argCount` alone — two states agreeing on those four fields render
identically, no matter their resolved arguments, stack or cause — with
`toString` the exact one-liner `msgid=<id> [<type>] <text> (<argsCount>
args)` and `toJSON` exactly the four concise fields; scenario A yields
exactly `msgid=1 [log] Hello, world! (0 args)`. -/
theorem concise_rendering_is_argument_free :
    (∀ (st st2 : ConsoleFormatterState),
      st.id = st2.id → st.type = st2.type → st.text = st2.text →
      st.argCount = st2.argCount →
        st.toString = st2.toString ∧ st.toJSON = st2.toJSON) ∧
    (∀ st : ConsoleFormatterState,
      st.toJSON = ⟨st.type, st.text, st.argCount, st.id⟩ ∧
      st.toString = "msgid=" ++ toString st.id ++ " [" ++ st.type ++ "] " ++
        st.text ++ " (" ++ toString st.argCount ++ " args)") ∧
    (ConsoleFormatter.from msgScenarioA (optsPlain 1) none).toString =
      "msgid=1 [log] Hello, world! (0 args)" := by
  refine ⟨?_, fun st => ⟨rfl, rfl⟩, by decide⟩
  intro st st2 h1 h2 h3 h4
  constructor
  · simp [ConsoleFormatterState.toString, ConsoleFormatterState.toJSON,
      convertConsoleMessageConciseToString, h1, h2, h3, h4]
  · simp [ConsoleFormatterState.toJSON, h1, h2, h3, h4]

theorem concise_rendering_is_argument_free_witness :
    (⟨1, "log", "Hello", 0, [], none, none, ignNever⟩ :
        ConsoleFormatterState).toString =
      (⟨1, "log", "Hello", 0, [.val (.prim "secret")],
        some ⟨⟨[anonFrame]⟩, []⟩, some (.mk "boom" none none),
        ignNever⟩ : ConsoleFormatterState).toString ∧
    (⟨1, "log", "Hello", 0, [], none, none, ignNever⟩ :
        ConsoleFormatterState).toJSON =
      (⟨1, "log", "Hello", 0, [.val (.prim "secret")],
        some ⟨⟨[anonFrame]⟩, []⟩, some (.mk "boom" none none),
        ignNever⟩ : ConsoleFormatterState).toJSON :=
  concise_rendering_is_argument_free.1 _ _ rfl rfl rfl rfl

/-- C5 (code bug): for a frame carrying only a url, `formatFrame` renders
the internal 0-based `line` and `column` verbatim — line 10, column 2
render as `10:2`, not as the 1-based `11:3` that the spec (and the
`Note: line and column numbers use 1-based indexing` footer the formatter
itself appends to every stack trace) promise. -/
theorem formatFrame_url_uses_zero_based_numbers :
    formatFrame ⟨some "foo", some "foo.ts", 10, 2, none⟩ =
      "at foo (foo.ts:10:2)" ∧
    formatFrame ⟨some "foo", some "foo.ts", 10, 2, none⟩ ≠
      "at foo (foo.ts:11:3)" := by
  constructor
  · decide
  · decide

/-- C6 counterexample: a 36-character description makes the banner seed 41
characters long, so `'-'.repeat(40 - 41)` throws a `RangeError` instead of
producing a 40-character separator — the renderer fails rather than
producing a separator for this description. -/
theorem asyncSeparator_overlong_description_fails :
    formatAsyncFragment
      ⟨some "abcdefghijklmnopqrstuvwxyz0123456789", [anonFrame]⟩
      ignNever = none := by
  decide

/-- C6 amended: for an async fragment with at least one surviving frame
whose effective description (`description || 'async'`) is at most 35
characters, the rendered separator is exactly 40 characters wide: the
`--- <description> ` seed padded to width 40 with dashes.  Longer
descriptions make the renderer throw instead. -/
theorem asyncSeparator_is_forty_chars (frag : AsyncFragment)
    (ign : IgnoreCheck)
    (hne : formatFragment ⟨frag.frames⟩ ign ≠ [])
    (hlen : (jsOrDefault frag.description "async").length ≤ 35) :
    formatAsyncFragment frag ign =
      some ((("--- " ++ jsOrDefault frag.description "async" ++ " ") ++
          String.mk (List.replicate
            (40 - ("--- " ++ jsOrDefault frag.description "async" ++
              " ").length) '-')) ::
        formatFragment ⟨frag.frames⟩ ign) ∧
    (("--- " ++ jsOrDefault frag.description "async" ++ " ") ++
      String.mk (List.replicate
        (40 - ("--- " ++ jsOrDefault frag.description "async" ++
          " ").length) '-')).length = 40 := by
  have h4 : ("--- " : String).length = 4 := rfl
  have h1 : (" " : String).length = 1 := rfl
  have hblen : ("--- " ++ jsOrDefault frag.description "async" ++
      " ").length = (jsOrDefault frag.description "async").length + 5 := by
    rw [String.length_append, String.length_append, h4, h1]
    omega
  have hie : (formatFragment ⟨frag.frames⟩ ign).isEmpty = false := by
    simp [List.isEmpty_iff, hne]
  have hnonneg : ¬ ((40 : Int) -
      (("--- " ++ jsOrDefault frag.description "async" ++
        " ").length : Int) < 0) := by
    rw [hblen]
    push_cast
    omega
  have htonat : ((40 : Int) -
      (("--- " ++ jsOrDefault frag.description "async" ++
        " ").length : Int)).toNat =
      40 - ("--- " ++ jsOrDefault frag.description "async" ++
        " ").length := by
    rw [hblen]
    omega
  constructor
  · rw [formatAsyncFragment]
    rw [hie]
    simp only [Bool.false_eq_true, if_false]
    rw [jsRepeat, if_neg hnonneg, htonat]
  · rw [String.length_append]
    have hmk : (String.mk (List.replicate
        (40 - ("--- " ++ jsOrDefault frag.description "async" ++
          " ").length) '-')).length =
        (List.replicate (40 - ("--- " ++ jsOrDefault frag.description
          "async" ++ " ").length) '-').length := rfl
    rw [hmk, List.length_replicate, hblen]
    omega

theorem asyncSeparator_is_forty_chars_witness :
    formatAsyncFragment ⟨some "setTimeout", [anonFrame]⟩ ignNever =
      some ((("--- " ++ jsOrDefault (some "setTimeout") "async" ++ " ") ++
          String.mk (List.replicate
            (40 - ("--- " ++ jsOrDefault (some "setTimeout") "async" ++
              " ").length) '-')) ::
        formatFragment ⟨[anonFrame]⟩ ignNever) ∧
    (("--- " ++ jsOrDefault (some "setTimeout") "async" ++ " ") ++
      String.mk (List.replicate
        (40 - ("--- " ++ jsOrDefault (some "setTimeout") "async" ++
          " ").length) '-')).length = 40 :=
  asyncSeparator_is_forty_chars ⟨some "setTimeout", [anonFrame]⟩ ignNever
    (by decide) (by decide)

theorem mapIdxFrom_getElem (f : Nat → α → β) :
    ∀ (l : List α) (k i : Nat),
      (mapIdxFrom f k l)[i]? = (l[i]?).map (f (k + i)) := by
  intro l
  induction l with
  | nil => intro k i; simp [mapIdxFrom]
  | cons a as ih =>
    intro k i
    cases i with
    | zero => simp [mapIdxFrom]
    | succ i =>
      simp only [mapIdxFrom, List.getElem?_cons_succ]
      rw [ih (k + 1) i]
      have hidx : k + 1 + i = k + (i + 1) := by omega
      rw [hidx]

/-- C7: under enrichment with no testing override, `from` resolves the
arguments in original order, one slot per raw argument; a slot whose
realization throws holds exactly the index-naming sentinel string while
every other slot holds its realized value; a throwing stack-trace
constructor yields a formatter with no stack; `from` itself always
completes (it is a total function of the collaborator outcomes). -/
theorem from_isolates_collaborator_failures (msg : MsgSource)
    (options : FromOptions) (manager : Option IgnoreListManager)
    (hfd : options.fetchDetailedData = true)
    (hra : options.resolvedArgsForTesting = none) :
    (ConsoleFormatter.from msg options manager).resolvedArgs =
      jsMapWithIndex resolveArg msg.args ∧
    (∀ (i : Nat) (a : RawArg), msg.args[i]? = some a →
      (ConsoleFormatter.from msg options manager).resolvedArgs[i]? =
        some (resolveArg i a)) ∧
    (∀ (i : Nat) (a : RawArg), msg.args[i]? = some a →
      a.isErrorObject = false → a.jsonValue = .error () →
      (ConsoleFormatter.from msg options manager).resolvedArgs[i]? =
        some (.val (.prim ("<error: Argument " ++ toString i ++
          " is no longer available>")))) ∧
    (∀ (i : Nat) (a : RawArg) (v : JsValue), msg.args[i]? = some a →
      a.isErrorObject = false → a.jsonValue = .ok v →
      (ConsoleFormatter.from msg options manager).resolvedArgs[i]? =
        some (.val v)) ∧
    (options.resolvedStackTraceForTesting = none →
      msg.stackResult = .error () →
      (ConsoleFormatter.from msg options manager).stack = none) := by
  have hargs : (ConsoleFormatter.from msg options manager).resolvedArgs =
      jsMapWithIndex resolveArg msg.args := by
    simp [ConsoleFormatter.from, hfd, hra]
  have hslot : ∀ (i : Nat) (a : RawArg), msg.args[i]? = some a →
      (ConsoleFormatter.from msg options manager).resolvedArgs[i]? =
        some (resolveArg i a) := by
    intro i a ha
    rw [hargs, jsMapWithIndex, mapIdxFrom_getElem, ha]
    simp
  refine ⟨hargs, hslot, ?_, ?_, ?_⟩
  · intro i a ha herr hjson
    rw [hslot i a ha]
    simp [resolveArg, herr, hjson]
  · intro i a v ha herr hjson
    rw [hslot i a ha]
    simp [resolveArg, herr, hjson]
  · intro hrt hsr
    simp [ConsoleFormatter.from, hfd, hra, hrt, hsr]

theorem from_isolates_collaborator_failures_witness :
    (ConsoleFormatter.from
      ⟨"log", "x", [rawStringArg "ok0", rawFailingArg, rawStringArg "ok2"],
        .error ()⟩ (optsEnriched 7) none).resolvedArgs[1]? =
      some (.val (.prim "<error: Argument 1 is no longer available>")) ∧
    (ConsoleFormatter.from
      ⟨"log", "x", [rawStringArg "ok0", rawFailingArg, rawStringArg "ok2"],
        .error ()⟩ (optsEnriched 7) none).resolvedArgs[0]? =
      some (.val (.prim "ok0")) ∧
    (ConsoleFormatter.from
      ⟨"log", "x", [rawStringArg "ok0", rawFailingArg, rawStringArg "ok2"],
        .error ()⟩ (optsEnriched 7) none).resolvedArgs[2]? =
      some (.val (.prim "ok2")) ∧
    (ConsoleFormatter.from
      ⟨"log", "x", [rawStringArg "ok0", rawFailingArg, rawStringArg "ok2"],
        .error ()⟩ (optsEnriched 7) none).stack = none := by
  refine ⟨?_, ?_, ?_, ?_⟩
  · exact (from_isolates_collaborator_failures
      ⟨"log", "x", [rawStringArg "ok0", rawFailingArg, rawStringArg "ok2"],
        .error ()⟩ (optsEnriched 7) none rfl rfl).2.2.1 1 rawFailingArg rfl rfl rfl
  · exact (from_isolates_collaborator_failures
      ⟨"log", "x", [rawStringArg "ok0", rawFailingArg, rawStringArg "ok2"],
        .error ()⟩ (optsEnriched 7) none rfl rfl).2.2.2.1 0 (rawStringArg "ok0") (.prim "ok0") rfl rfl rfl
  · exact (from_isolates_collaborator_failures
      ⟨"log", "x", [rawStringArg "ok0", rawFailingArg, rawStringArg "ok2"],
        .error ()⟩ (optsEnriched 7) none rfl rfl).2.2.2.1 2 (rawStringArg "ok2") (.prim "ok2") rfl rfl rfl
  · exact (from_isolates_collaborator_failures
      ⟨"log", "x", [rawStringArg "ok0", rawFailingArg, rawStringArg "ok2"],
        .error ()⟩ (optsEnriched 7) none rfl rfl).2.2.2.2 rfl rfl

/-- C8 counterexample: on a state with id 1, type `log`, text `Hello`, no
arguments and no stack, `toStringDetailed` joins the two non-empty
sections with a single newline, not with the blank-line separation the
claim describes. -/
theorem toStringDetailed_not_blankline_separated :
    (⟨1, "log", "Hello", 0, [], none, none, ignNever⟩ :
        ConsoleFormatterState).toStringDetailed =
      some "ID: 1\nMessage: log> Hello" ∧
    (⟨1, "log", "Hello", 0, [], none, none, ignNever⟩ :
        ConsoleFormatterState).toStringDetailed ≠
      some (blankLineJoinedSpec ["ID: 1", "Message: log> Hello"]) := by
  constructor
  · decide
  · decide

/-- C8 amended: `toStringDetailed` joins the ID line, the Message line,
the arguments section, and (when a stack is present) the `### Stack
trace` heading plus the rendered stack, dropping empty sections, with a
single newline between consecutive non-empty sections (not a blank
line). -/
theorem toStringDetailed_joins_nonempty_sections
    (st : ConsoleFormatterState) (d : ConsoleMessageDetailed)
    (h : st.toJSONDetailed = some d) :
    st.toStringDetailed = some (String.intercalate "\n"
      ((["ID: " ++ toString d.id,
         "Message: " ++ d.type ++ "> " ++ d.text,
         formatArgs d] ++
        (match d.stackTrace with
         | some s => ["### Stack trace", s]
         | none => [])).filter (fun line => !(line == "")))) := by
  rw [ConsoleFormatterState.toStringDetailed, h]
  rfl

theorem toStringDetailed_joins_nonempty_sections_witness :
    (⟨2, "warning", "", 0, [], none, none, ignNever⟩ :
        ConsoleFormatterState).toStringDetailed =
      some (String.intercalate "\n"
        ((["ID: " ++ toString
            (⟨2, "warning", "", 0, [], none⟩ : ConsoleMessageDetailed).id,
           "Message: " ++
            (⟨2, "warning", "", 0, [], none⟩ : ConsoleMessageDetailed).type ++
            "> " ++
            (⟨2, "warning", "", 0, [], none⟩ : ConsoleMessageDetailed).text,
           formatArgs (⟨2, "warning", "", 0, [], none⟩ :
            ConsoleMessageDetailed)] ++
          (match (⟨2, "warning", "", 0, [], none⟩ :
              ConsoleMessageDetailed).stackTrace with
           | some s => ["### Stack trace", s]
           | none => [])).filter (fun line => !(line == "")))) :=
  toStringDetailed_joins_nonempty_sections
    ⟨2, "warning", "", 0, [], none, none, ignNever⟩
    ⟨2, "warning", "", 0, [], none⟩ rfl

theorem countP_causedBy_syncAsync_zero {st : StackTrace}
    {ign : IgnoreCheck} {asyncLines : List (List String)}
    (hma : mapOrThrow (fun item => formatAsyncFragment item ign)
      st.asyncFragments = some asyncLines) :
    List.countP causedByLine (formatFragment st.syncFragment ign) = 0 ∧
    List.countP causedByLine asyncLines.flatten = 0 := by
  constructor
  · apply List.countP_eq_zero.mpr
    intro l hl
    obtain ⟨f, _, hf⟩ :
        ∃ a, (a ∈ st.syncFragment.frames ∧ ign a = false) ∧
          formatFrame a = l := by
      simpa [formatFragment] using hl
    obtain ⟨rest, hr⟩ := formatFrame_shape f
    rw [← hf, hr, causedByLine_at]
    simp
  · apply List.countP_eq_zero.mpr
    intro l hl
    obtain ⟨ls, hls, hl2⟩ := List.mem_flatten.mp hl
    obtain ⟨afrag, _, hfa⟩ := mapOrThrow_mem hma ls hls
    rcases formatAsyncFragment_shape hfa l hl2 with ⟨r, rfl⟩ | ⟨r, rfl⟩
    · rw [causedByLine_at]; simp
    · rw [causedByLine_dash]; simp

theorem count_aux (n : Nat) : ∀ (cause : Option SymbolizedError),
    sizeOf cause ≤ n → innerLinksHaveStacks cause = true →
    (∀ (ign : IgnoreCheck) (lines : List String),
      formatCause cause ign = some lines →
        List.countP causedByLine lines = causeDepth cause) ∧
    (∀ (st : StackTrace) (ign : IgnoreCheck) (lines : List String),
      formatStackTraceInner (some st) cause ign = some lines →
        List.countP causedByLine lines = causeDepth cause) := by
  induction n with
  | zero =>
    intro cause hsize
    exfalso
    cases cause <;> simp at hsize
  | succ n ih =>
    intro cause hsize hlinks
    have causePart : ∀ (ign : IgnoreCheck) (lines : List String),
        formatCause cause ign = some lines →
          List.countP causedByLine lines = causeDepth cause := by
      cases cause with
      | none =>
        intro ign lines h
        rw [formatCause] at h
        cases h
        simp [causeDepth]
      | some c =>
        intro ign lines h
        rw [formatCause] at h
        split at h
        · cases h
        · rename_i rest hrest
          cases h
          rw [List.countP_cons_of_pos _ rest (causedByLine_caused c.message)]
          rw [causeDepth]
          have hrestCount : List.countP causedByLine rest =
              causeDepth c.cause := by
            cases hcc : c.cause with
            | none =>
              have hsub : sizeOf (none : Option SymbolizedError) ≤ n := by
                cases c with
                | mk m s cc => simp at hsize ⊢; omega
              cases hcst : c.stackTrace with
              | none =>
                rw [hcst, formatStackTraceInner] at hrest
                cases hrest
                simp [causeDepth]
              | some st2 =>
                rw [hcst, hcc] at hrest
                have := (ih none hsub (by rw [innerLinksHaveStacks])).2
                  st2 ign rest hrest
                exact this
            | some c2 =>
              have hstacks2 : c.stackTrace.isSome = true ∧
                  innerLinksHaveStacks (some c2) = true := by
                rw [innerLinksHaveStacks] at hlinks
                rw [hcc] at hlinks
                simpa using hlinks
              obtain ⟨hsome, hlinks2⟩ := hstacks2
              obtain ⟨st2, hst2⟩ := Option.isSome_iff_exists.mp hsome
              have hsub : sizeOf (some c2 : Option SymbolizedError) ≤ n := by
                rw [← hcc]
                cases c with
                | mk m s cc =>
                  simp [SymbolizedError.cause] at hsize ⊢
                  omega
              rw [hst2, hcc] at hrest
              exact (ih (some c2) hsub hlinks2).2 st2 ign rest hrest
          rw [hrestCount]
          omega
    refine ⟨causePart, ?_⟩
    intro st ign lines h
    rw [formatStackTraceInner] at h
    split at h
    · cases h
    · rename_i asyncLines hma
      split at h
      · cases h
      · rename_i causeLines hcl
        cases h
        obtain ⟨hz1, hz2⟩ := countP_causedBy_syncAsync_zero hma
        rw [List.countP_append, List.countP_append, hz1, hz2]
        rw [causePart ign causeLines hcl]
        omega

/-- C9 counterexample: a depth-2 cause chain whose first link carries no
stack trace renders only one `Caused by:` line — the deeper cause is
dropped with the missing stack, so the output does not contain `d = 2`
such lines. -/
theorem causeChain_linkWithoutStack_drops_deeper_causes :
    formatStackTraceInner (some ⟨⟨[anonFrame]⟩, []⟩)
      (some (.mk "m1" none (some (.mk "m2" none none)))) ignNever =
      some ["at <anonymous>", "Caused by: m1"] ∧
    List.countP causedByLine ["at <anonymous>", "Caused by: m1"] = 1 ∧
    causeDepth (some (.mk "m1" none (some (.mk "m2" none none)))) = 2 := by
  refine ⟨?_, by decide, ?_⟩
  · simp [formatStackTraceInner, formatCause, mapOrThrow, formatFragment,
      formatFrame, ignNever, anonFrame, SymbolizedError.stackTrace,
      SymbolizedError.cause, SymbolizedError.message]
  · simp [causeDepth, SymbolizedError.cause]

/-- C9 amended: the recursive cause rendering terminates on every finite
chain; each rendered link contributes exactly one `Caused by: <message>`
line followed by that link's own rendering; and when every link except
possibly the last carries a stack trace, the inner rendering contains
exactly `d` such lines for a depth-`d` chain (a link without a stack
trace cuts rendering off, see the counterexample). -/
theorem causeChain_one_line_per_link :
    (∀ (st : StackTrace) (cause : Option SymbolizedError)
        (ign : IgnoreCheck) (lines : List String),
      innerLinksHaveStacks cause = true →
      formatStackTraceInner (some st) cause ign = some lines →
        List.countP causedByLine lines = causeDepth cause) ∧
    (∀ (c : SymbolizedError) (ign : IgnoreCheck) (lines : List String),
      formatCause (some c) ign = some lines →
        ∃ rest, lines = ("Caused by: " ++ c.message) :: rest ∧
          formatStackTraceInner c.stackTrace c.cause ign = some rest) := by
  constructor
  · intro st cause ign lines hlinks h
    exact (count_aux (sizeOf cause) cause le_rfl hlinks).2 st ign lines h
  · intro c ign lines h
    rw [formatCause] at h
    split at h
    · cases h
    · rename_i rest hrest
      cases h
      exact ⟨rest, rfl, hrest⟩

theorem causeChain_one_line_per_link_witness :
    List.countP causedByLine
      ["at <anonymous>", "Caused by: m1", "at <anonymous>",
        "Caused by: m2"] =
      causeDepth (some (.mk "m1" (some ⟨⟨[anonFrame]⟩, []⟩)
        (some (.mk "m2" none none)))) ∧
    (∃ rest, ["Caused by: m1"] = ("Caused by: " ++
        (SymbolizedError.mk "m1" none none).message) :: rest ∧
      formatStackTraceInner (SymbolizedError.mk "m1" none none).stackTrace
        (SymbolizedError.mk "m1" none none).cause ignNever = some rest) :=
  ⟨causeChain_one_line_per_link.1 ⟨⟨[anonFrame]⟩, []⟩
      (some (.mk "m1" (some ⟨⟨[anonFrame]⟩, []⟩)
        (some (.mk "m2" none none)))) ignNever
      ["at <anonymous>", "Caused by: m1", "at <anonymous>",
        "Caused by: m2"]
      (by simp [innerLinksHaveStacks, SymbolizedError.stackTrace,
        SymbolizedError.cause])
      (by simp [formatStackTraceInner, formatCause, mapOrThrow,
        formatFragment, formatFrame, ignNever, anonFrame,
        SymbolizedError.stackTrace, SymbolizedError.cause,
        SymbolizedError.message]),
    causeChain_one_line_per_link.2 (.mk "m1" none none) ignNever
      ["Caused by: m1"]
      (by simp [formatCause, formatStackTraceInner,
        SymbolizedError.stackTrace, SymbolizedError.cause,
        SymbolizedError.message])⟩

theorem mapOrThrow_getElem {f : α → Option β} :
    ∀ {as : List α} {bs : List β}, mapOrThrow f as = some bs →
      ∀ (k : Nat) (a : α), as[k]? = some a → bs[k]? = f a := by
  intro as
  induction as with
  | nil =>
    intro bs h k a ha
    simp at ha
  | cons x xs ih =>
    intro bs h k a ha
    rw [mapOrThrow] at h
    split at h
    · split at h
      · rename_i ob b hfx obs bs0 hrest
        cases h
        cases k with
        | zero =>
          simp at ha
          subst ha
          simp [hfx]
        | succ k =>
          simp only [List.getElem?_cons_succ] at ha ⊢
          exact ih hrest k a ha
      · cases h
    · cases h

/-- C10: when empty text drops the first resolved argument, the detailed
arguments section renumbers from zero — the slot labelled `Arg #k` holds
the formatted original argument `k + 1`, so `Arg #0` labels the second
original argument; scenario B renders `### Arguments` followed by
`Arg #0: another file`. -/
theorem argLabels_renumber_after_first_arg_drop :
    (∀ (st : ConsoleFormatterState) (d : ConsoleMessageDetailed)
        (k : Nat) (x : ResolvedArg) (s : String),
      st.text = "" → st.resolvedArgs.length > 0 →
      st.toJSONDetailed = some d →
      st.resolvedArgs[k + 1]? = some x →
      formatArg x st.isIgnored = some s →
        d.args[k]? = some s ∧
        (d.args ≠ [] →
          formatArgs d = String.intercalate "\n"
            ("### Arguments" ::
              (d.args.enum.map (fun p =>
                "Arg #" ++ toString p.1 ++ ": " ++ p.2))) ∧
          (d.args.enum.map (fun p =>
            "Arg #" ++ toString p.1 ++ ": " ++ p.2))[k]? =
            some ("Arg #" ++ toString k ++ ": " ++ s))) ∧
    formatArgs ⟨1, "log", "", 2, ["another file"], none⟩ =
      "### Arguments\nArg #0: another file" := by
  constructor
  · intro st d k x s htext hlen h hslot hfmt
    have hget : st.getArgs = st.resolvedArgs.tail := by
      simp [ConsoleFormatterState.getArgs, hlen, htext]
    have hargs : mapOrThrow (fun y => formatArg y st.isIgnored)
        st.getArgs = some d.args := by
      rw [ConsoleFormatterState.toJSONDetailed] at h
      split at h
      · cases h
      · rename_i args hmap
        split at h
        · split at h
          · cases h
          · cases h
            simpa using hmap
        · cases h
          simpa using hmap
    have htail : st.getArgs[k]? = some x := by
      rw [hget, List.getElem?_tail]
      exact hslot
    have hk : d.args[k]? = some s := by
      rw [mapOrThrow_getElem hargs k x htail, hfmt]
    refine ⟨hk, ?_⟩
    intro hne
    constructor
    · rw [formatArgs]
      rw [if_neg (by simpa [List.isEmpty_iff] using hne)]
    · rw [List.getElem?_map, List.getElem?_enum, hk]
      rfl
  · decide

theorem argLabels_renumber_after_first_arg_drop_witness :
    (⟨1, "log", "", 2, ["another file"], none⟩ :
        ConsoleMessageDetailed).args[0]? = some "another file" ∧
    ((⟨1, "log", "", 2, ["another file"], none⟩ :
        ConsoleMessageDetailed).args ≠ [] →
      formatArgs ⟨1, "log", "", 2, ["another file"], none⟩ =
        String.intercalate "\n"
          ("### Arguments" ::
            ((⟨1, "log", "", 2, ["another file"], none⟩ :
              ConsoleMessageDetailed).args.enum.map (fun p =>
                "Arg #" ++ toString p.1 ++ ": " ++ p.2))) ∧
      ((⟨1, "log", "", 2, ["another file"], none⟩ :
          ConsoleMessageDetailed).args.enum.map (fun p =>
            "Arg #" ++ toString p.1 ++ ": " ++ p.2))[0]? =
        some ("Arg #" ++ toString 0 ++ ": " ++ "another file")) :=
  argLabels_renumber_after_first_arg_drop.1
    (ConsoleFormatter.from msgScenarioB (optsEnriched 1) none)
    ⟨1, "log", "", 2, ["another file"], none⟩ 0
    (.val (.prim "another file")) "another file"
    rfl (by decide) rfl rfl rfl
